import Mathlib

/-!
Shallow embedding of the backtest engine (`backend/backtesting.py`) and the
performance-analytics engine (`backend/performance_analytics.py`) of the
`ai-forex-trader` repository.

Modelling conventions:
* Python floats are modelled by exact rationals (`ℚ`); the IEEE special values
  produced by numpy (`inf`, `-inf`, `nan`) and the (in general irrational)
  values of square-root based metrics are modelled by the `PyFloat` inductive.
* `datetime` values are modelled by integer POSIX seconds (ℤ).  `isoformat` and
  `fromisoformat` are mutually inverse on datetimes, so serialising a time into
  a report dict and parsing it back is the identity on the ℤ model.
* Python rounding (`round(x, n)`, round-half-to-even) is modelled exactly on ℚ.
* async calls to the market-data provider and the signal source are modelled by
  passing the fetched candle list, resp. a pure signal function, as arguments.
-/

/-- Model of the float values flowing through the engine.  `fin q` is an exact
rational float value; `inf`, `ninf`, `nan` are the IEEE specials numpy produces
(e.g. on division by zero).  `irr a b` denotes the real number `a / √b` (with
`0 < b`), the exact value of square-root based metrics (Sharpe/Sortino ratios,
standard deviations, Pearson correlations); it is kept in this symbolic form
because such values are irrational in general and no claim inspects them. -/
inductive PyFloat where
  | fin (q : ℚ)
  | inf
  | ninf
  | nan
  | irr (a b : ℚ)
deriving DecidableEq

/-- Round a rational to the nearest integer, ties to even — the rounding mode of
Python's builtin `round`. -/
def roundHalfEven (x : ℚ) : ℤ :=
  let f := ⌊x⌋
  let r := x - f
  if r < 1/2 then f
  else if 1/2 < r then f + 1
  else if f % 2 = 0 then f else f + 1

/-- Python `round(x, 2)` on the rational model. -/
def round2 (x : ℚ) : ℚ := (roundHalfEven (x * 100) : ℚ) / 100

/-- Python `round(x, 5)` on the rational model. -/
def round5 (x : ℚ) : ℚ := (roundHalfEven (x * 100000) : ℚ) / 100000

/-- Python `round(x, 2)` lifted to `PyFloat`: `round` maps `inf`/`nan` to
themselves.  An `irr` value is kept symbolic (the rounded value of an irrational
number is rational but no claim reads these fields, so the pre-rounding value is
stored). -/
def roundPy2 : PyFloat → PyFloat
  | .fin q => .fin (round2 q)
  | x => x

/-- numpy float division `a / b`: division by zero yields `±inf` (or `nan` for
`0/0`) with a warning rather than an exception. -/
def npDiv (a b : ℚ) : PyFloat :=
  if b = 0 then (if a = 0 then .nan else if 0 < a then .inf else .ninf)
  else .fin (a / b)

/-- `backtesting.Position`.  `position_type` is the source's string tag
(`"long"` or `"short"`); exit fields are `None` until the position closes. -/
structure Position where
  symbol : String
  entry_price : ℚ
  stop_loss : ℚ
  target_price : ℚ
  size : ℚ
  entry_time : ℤ
  position_type : String
  exit_price : Option ℚ := none
  exit_time : Option ℤ := none
  pnl : ℚ := 0
  exit_reason : Option String := none
deriving DecidableEq

/-- `Position.calculate_pnl`. -/
def Position.calculate_pnl (p : Position) (exit_price : ℚ) : ℚ :=
  let price_diff :=
    if p.position_type = "long" then exit_price - p.entry_price
    else p.entry_price - exit_price
  price_diff * p.size

/-- `Position.close_position`. -/
def Position.close_position (p : Position) (price : ℚ) (t : ℤ) (reason : String) :
    Position :=
  { p with exit_price := some price, exit_time := some t,
           exit_reason := some reason, pnl := p.calculate_pnl price }

/-- `backtesting.BacktestResult.__init__`: all scalar metrics default to zero,
all series to empty.  `trade_durations` holds `timedelta`s, modelled as seconds. -/
structure BacktestResult where
  total_trades : ℕ := 0
  winning_trades : ℕ := 0
  losing_trades : ℕ := 0
  total_pnl : ℚ := 0
  max_drawdown : ℚ := 0
  win_rate : ℚ := 0
  profit_factor : PyFloat := .fin 0
  avg_win : ℚ := 0
  avg_loss : ℚ := 0
  largest_win : ℚ := 0
  largest_loss : ℚ := 0
  positions : List Position := []
  equity_curve : List ℚ := []
  drawdown_curve : List ℚ := []
  trade_durations : List ℤ := []
deriving DecidableEq

/-- `np.cumsum` with accumulator `a`. -/
def cumsumFrom (a : ℚ) : List ℚ → List ℚ
  | [] => []
  | x :: xs => (a + x) :: cumsumFrom (a + x) xs

/-- `np.cumsum`. -/
def cumsum (l : List ℚ) : List ℚ := cumsumFrom 0 l

/-- Tail of `np.maximum.accumulate` with running maximum `m`. -/
def rmaxAux (m : ℚ) : List ℚ → List ℚ
  | [] => []
  | x :: xs => max m x :: rmaxAux (max m x) xs

/-- `np.maximum.accumulate`. -/
def runningMax : List ℚ → List ℚ
  | [] => []
  | x :: xs => x :: rmaxAux x xs

/-- `np.max` (call sites guarantee a non-empty list, where the default is
irrelevant). -/
def npMax (l : List ℚ) : ℚ := l.foldl max (l.headD 0)

/-- `min` over a list (call sites guarantee non-emptiness). -/
def npMin (l : List ℚ) : ℚ := l.foldl min (l.headD 0)

/-- `np.mean` of a rational list (call sites guard non-emptiness per source). -/
def npMeanQ (l : List ℚ) : ℚ := l.sum / l.length

/-- `BacktestResult.calculate_metrics`: early-returns on an empty position
list, otherwise fills every metric field from the closed positions. -/
def BacktestResult.calculate_metrics (r : BacktestResult) : BacktestResult :=
  if r.positions = [] then r
  else
    let pnls := r.positions.map Position.pnl
    let wins := pnls.filter (fun x => 0 < x)
    let losses := pnls.filter (fun x => x < 0)
    let total_losses := |losses.sum|
    let eq := cumsum pnls
    let dd := List.zipWith (fun a b => a - b) (runningMax eq) eq
    { r with
      total_trades := r.positions.length
      winning_trades := wins.length
      losing_trades := losses.length
      total_pnl := pnls.sum
      win_rate :=
        if 0 < r.positions.length then (wins.length : ℚ) / r.positions.length * 100 else 0
      profit_factor := if 0 < total_losses then .fin (wins.sum / total_losses) else .inf
      avg_win := if wins ≠ [] then npMeanQ wins else 0
      avg_loss := if losses ≠ [] then npMeanQ losses else 0
      largest_win := if wins ≠ [] then npMax wins else 0
      largest_loss := if losses ≠ [] then npMin losses else 0
      trade_durations := r.positions.filterMap fun p => p.exit_time.map (· - p.entry_time)
      equity_curve := eq
      drawdown_curve := dd
      max_drawdown := npMax dd }

/-- The `analysis` dict returned by `ai_trader.analyze_market`: trend tag,
confidence, and the signal's stop/target prices. -/
structure TradingSignal where
  confidence : ℚ
  trend : String
  stop_loss : ℚ
  target_price : ℚ
deriving DecidableEq

/-- One OHLC candle restricted to the fields the backtest loop reads
(`df.index[i]` and `df['Close'].iloc[i]`). -/
structure Candle where
  time : ℤ
  close : ℚ
deriving DecidableEq, Inhabited

/-- The stop-loss exit condition of `run_backtest` (close price only). -/
def stopHit (p : Position) (price : ℚ) : Prop :=
  (p.position_type = "long" ∧ price ≤ p.stop_loss) ∨
  (p.position_type = "short" ∧ p.stop_loss ≤ price)

instance (p : Position) (price : ℚ) : Decidable (stopHit p price) := by
  unfold stopHit; infer_instance

/-- The take-profit exit condition of `run_backtest` (close price only). -/
def takeProfitHit (p : Position) (price : ℚ) : Prop :=
  (p.position_type = "long" ∧ p.target_price ≤ price) ∨
  (p.position_type = "short" ∧ price ≤ p.target_price)

instance (p : Position) (price : ℚ) : Decidable (takeProfitHit p price) := by
  unfold takeProfitHit; infer_instance

/-- Result of one pass of the exit loop of `run_backtest` over the open
positions: the positions still open, the positions closed this candle (in
iteration order), and the total P&L credited to the balance. -/
structure ExitPass where
  remaining : List Position
  closed : List Position
  balance_delta : ℚ
deriving DecidableEq

/-- The exit loop of `run_backtest` (`for position in open_positions[:]`):
stop-loss is checked first, then take-profit; a hit closes the position at the
candle's close price and moves it to the closed list. -/
def processExits (price : ℚ) (t : ℤ) : List Position → ExitPass
  | [] => ⟨[], [], 0⟩
  | p :: ps =>
    if stopHit p price then
      let q := p.close_position price t "stop_loss"
      let rest := processExits price t ps
      ⟨rest.remaining, q :: rest.closed, q.pnl + rest.balance_delta⟩
    else if takeProfitHit p price then
      let q := p.close_position price t "take_profit"
      let rest := processExits price t ps
      ⟨rest.remaining, q :: rest.closed, q.pnl + rest.balance_delta⟩
    else
      let rest := processExits price t ps
      ⟨p :: rest.remaining, rest.closed, rest.balance_delta⟩

/-- The mutable configuration fields of the `Backtester` object (`self`),
with the `__init__` defaults. -/
structure Backtester where
  initial_balance : ℚ := 10000
  position_size : ℚ := 1/50
  max_positions : ℕ := 5
deriving DecidableEq

/-- The local simulation state of one `run_backtest` call: running balance,
open-position list, and the closed positions accumulated in
`result.positions`. -/
structure SimState where
  balance : ℚ
  open_positions : List Position
  closed : List Position
deriving DecidableEq

/-- One iteration of the candle loop of `run_backtest` at index `i`:
process exits at the candle's close, then (unless the open-position count is at
or above `max_positions`) query the signal source on the candle prefix and
possibly open one new position. -/
def stepCandle (cfg : Backtester) (sig : List Candle → TradingSignal)
    (symbol : String) (candles : List Candle) (s : SimState) (i : ℕ) : SimState :=
  let current_time := (candles.getD i default).time
  let current_price := (candles.getD i default).close
  let ex := processExits current_price current_time s.open_positions
  let balance := s.balance + ex.balance_delta
  let closed := s.closed ++ ex.closed
  if cfg.max_positions ≤ ex.remaining.length then
    ⟨balance, ex.remaining, closed⟩
  else
    let analysis := sig (candles.take (i + 1))
    if 7/10 ≤ analysis.confidence then
      let ptype := if analysis.trend = "BULLISH" then "long" else "short"
      let risk_amount := balance * cfg.position_size
      let price_diff := |current_price - analysis.stop_loss|
      let psize := if 0 < price_diff then risk_amount / price_diff else 0
      if 0 < psize then
        ⟨balance,
         ex.remaining ++ [{ symbol := symbol, entry_price := current_price,
                            stop_loss := analysis.stop_loss,
                            target_price := analysis.target_price, size := psize,
                            entry_time := current_time, position_type := ptype }],
         closed⟩
      else ⟨balance, ex.remaining, closed⟩
    else ⟨balance, ex.remaining, closed⟩

/-- Initial simulation state of a `run_backtest` call. -/
def initSimState (cfg : Backtester) : SimState := ⟨cfg.initial_balance, [], []⟩

/-- Simulation state after the first `k` iterations of the candle loop
(the loop runs over indices `1 .. len(df)-1`). -/
def simStateAfter (cfg : Backtester) (sig : List Candle → TradingSignal)
    (symbol : String) (candles : List Candle) (k : ℕ) : SimState :=
  (List.range' 1 k).foldl (stepCandle cfg sig symbol candles) (initSimState cfg)

/-- The body of `run_backtest` after the parameters have been stored on `self`
(`cfg` holds those just-assigned fields): fetch is modelled by the `candles`
argument; an empty series raises `ValueError("No data available for ...")`,
modelled as `Except.error`; otherwise the loop runs, the remaining open
positions are force-closed at the last candle, and metrics are computed. -/
def Backtester.run_backtest_core (cfg : Backtester)
    (sig : List Candle → TradingSignal) (symbol : String)
    (candles : List Candle) : Except String BacktestResult :=
  if candles = [] then .error ("No data available for " ++ symbol)
  else
    let final := simStateAfter cfg sig symbol candles (candles.length - 1)
    let last_time := (candles.getLastD default).time
    let last_price := (candles.getLastD default).close
    let closed_all := final.closed ++
      final.open_positions.map fun p => p.close_position last_price last_time "end_of_test"
    .ok (BacktestResult.calculate_metrics { positions := closed_all })

/-- The keyword parameters of `run_backtest`, with their declared defaults. -/
structure BacktestParams where
  initial_balance : ℚ := 10000
  position_size : ℚ := 1/50
  max_positions : ℕ := 5
deriving DecidableEq

/-- `Backtester.run_backtest`, including its effect on the shared `Backtester`
instance: lines 119-122 of the source first assign the call's parameters to
`self.initial_balance` / `self.position_size` / `self.max_positions`; the rest
of the body then reads those fields, which in sequential execution equal the
just-assigned parameters, so the core runs with the updated configuration.
Returns the instance state after the call together with the call's outcome. -/
def Backtester.run_backtest (bt : Backtester) (p : BacktestParams)
    (sig : List Candle → TradingSignal) (symbol : String)
    (candles : List Candle) : Backtester × Except String BacktestResult :=
  let bt' : Backtester :=
    { bt with initial_balance := p.initial_balance,
              position_size := p.position_size,
              max_positions := p.max_positions }
  (bt', bt'.run_backtest_core sig symbol candles)

/-- The `summary` block of `generate_report`. -/
structure ReportSummary where
  total_trades : ℕ
  winning_trades : ℕ
  losing_trades : ℕ
  win_rate : ℚ
  profit_factor : PyFloat
  total_pnl : ℚ
  max_drawdown : ℚ
  avg_win : ℚ
  avg_loss : ℚ
  largest_win : ℚ
  largest_loss : ℚ
  avg_trade_duration_hours : ℚ
deriving DecidableEq

/-- One entry of the `trades` list of `generate_report`, which is also the
input dict shape of `PerformanceAnalytics.load_trades` (the report emits no
`size` key; `load_trades` reads it with `t.get('size', 0)`). `entry_time` is
the ISO-8601 string, which parses back to the same instant (identity on the ℤ
time model). -/
structure TradeDict where
  entry_time : ℤ
  exit_time : Option ℤ
  symbol : String
  type : String
  entry_price : ℚ
  exit_price : Option ℚ
  stop_loss : ℚ
  target_price : ℚ
  pnl : ℚ
  exit_reason : Option String
  size : Option ℚ := none
deriving DecidableEq

/-- The serializable structure returned by `generate_report`. -/
structure Report where
  summary : ReportSummary
  trades : List TradeDict
  equity_curve : List ℚ
  drawdown_curve : List ℚ
deriving DecidableEq

/-- The per-position dict built by `generate_report`: prices rounded to 5
decimals, P&L to 2; `exit_price` passes through a Python truthiness test
(`round(p.exit_price, 5) if p.exit_price else None`), so an exit price of
exactly `0.0` serialises as `None`; a `datetime` is always truthy, so
`exit_time` serialises exactly when present. -/
def tradeDictOf (p : Position) : TradeDict :=
  { entry_time := p.entry_time
    exit_time := p.exit_time
    symbol := p.symbol
    type := p.position_type
    entry_price := round5 p.entry_price
    exit_price := match p.exit_price with
      | some q => if q = 0 then none else some (round5 q)
      | none => none
    stop_loss := round5 p.stop_loss
    target_price := round5 p.target_price
    pnl := round2 p.pnl
    exit_reason := p.exit_reason }

/-- `Backtester.generate_report`: read-only transform of a `BacktestResult`
into the report shape.  Average trade duration is the mean of the stored
durations in hours, `0` if there are none. -/
def Backtester.generate_report (r : BacktestResult) : Report :=
  let avg_duration :=
    if r.trade_durations ≠ [] then npMeanQ (r.trade_durations.map fun d => (d : ℚ) / 3600)
    else 0
  { summary :=
      { total_trades := r.total_trades
        winning_trades := r.winning_trades
        losing_trades := r.losing_trades
        win_rate := round2 r.win_rate
        profit_factor := roundPy2 r.profit_factor
        total_pnl := round2 r.total_pnl
        max_drawdown := round2 r.max_drawdown
        avg_win := round2 r.avg_win
        avg_loss := round2 r.avg_loss
        largest_win := round2 r.largest_win
        largest_loss := round2 r.largest_loss
        avg_trade_duration_hours := round2 avg_duration }
    trades := r.positions.map tradeDictOf
    equity_curve := r.equity_curve
    drawdown_curve := r.drawdown_curve }

/-- `performance_analytics.Trade`, restricted to closed trade records: the
spec's data model (§3) defines the analytics input as externally supplied
trades that are *already closed*, so `exit_time` and `exit_reason` are present.
(`load_trades` would carry a missing exit time as NaT through pandas; no claim
exercises that.) -/
structure Trade where
  entry_time : ℤ
  exit_time : ℤ
  symbol : String
  position_type : String
  entry_price : ℚ
  exit_price : Option ℚ
  pnl : ℚ
  size : ℚ
  stop_loss : ℚ
  target_price : ℚ
  exit_reason : String
deriving DecidableEq

/-- Parse one input dict of `load_trades` into a `Trade`: `fromisoformat` on
the serialised times is the identity on the ℤ model; `exit_price` passes
through the source's truthiness test (`float(t['exit_price']) if
t['exit_price'] else None`, so `0.0` becomes `None`); `size` defaults to `0`
via `t.get('size', 0)`.  Dicts of unclosed trades fall outside the closed-trade
model and yield `none`. -/
def loadTradeDict (t : TradeDict) : Option Trade :=
  match t.exit_time, t.exit_reason with
  | some et, some er =>
    some { entry_time := t.entry_time
           exit_time := et
           symbol := t.symbol
           position_type := t.type
           entry_price := t.entry_price
           exit_price := match t.exit_price with
             | some q => if q = 0 then none else some q
             | none => none
           pnl := t.pnl
           size := t.size.getD 0
           stop_loss := t.stop_loss
           target_price := t.target_price
           exit_reason := er }
  | _, _ => none

/-- `PerformanceAnalytics.load_trades`: parses the input dicts and replaces the
loaded trade set wholesale.  The engine state is fully determined by the loaded
list (the derived columns and daily/monthly tables are functions of it), so the
queries below take the loaded list directly. -/
def load_trades (ds : List TradeDict) : Option (List Trade) :=
  ds.mapM loadTradeDict

/-- Derived column `duration` (hours between entry and exit). -/
def Trade.duration (t : Trade) : ℚ := ((t.exit_time - t.entry_time : ℤ) : ℚ) / 3600

/-- Derived column `risk_reward` (`np.where` on the position type; numpy float
division, so a zero risk denominator gives `±inf`/`nan`, not an exception). -/
def Trade.risk_reward (t : Trade) : PyFloat :=
  if t.position_type = "long" then
    npDiv (t.target_price - t.entry_price) (t.entry_price - t.stop_loss)
  else
    npDiv (t.entry_price - t.target_price) (t.stop_loss - t.entry_price)

/-- Day number of a POSIX timestamp (`resample('D')` key). -/
def dayIndex (t : ℤ) : ℤ := Int.fdiv t 86400

/-- Hour of day of a POSIX timestamp (`dt.hour`). -/
def hourOfDay (t : ℤ) : ℤ := (Int.emod t 86400) / 3600

/-- Weekday of a POSIX timestamp, Monday = 0 (day 0 = 1970-01-01 was a
Thursday). -/
def weekdayIndex (t : ℤ) : ℤ := Int.emod (dayIndex t + 3) 7

/-- Weekday name (`dt.day_name()`). -/
def dayName (w : ℤ) : String :=
  if w = 0 then "Monday" else if w = 1 then "Tuesday" else if w = 2 then "Wednesday"
  else if w = 3 then "Thursday" else if w = 4 then "Friday"
  else if w = 5 then "Saturday" else "Sunday"

/-- Proleptic-Gregorian year and month of a day number (civil-from-days
algorithm); used for the `resample('M')` month key. -/
def civilYM (z : ℤ) : ℤ × ℤ :=
  let z' := z + 719468
  let era := Int.fdiv z' 146097
  let doe := z' - era * 146097
  let yoe := (doe - doe / 1460 + doe / 36524 - doe / 146096) / 365
  let y := yoe + era * 400
  let doy := doe - (365 * yoe + yoe / 4 - yoe / 100)
  let mp := (5 * doy + 2) / 153
  let m := mp + (if mp < 10 then 3 else -9)
  (if m ≤ 2 then y + 1 else y, m)

/-- Linear month index of a POSIX timestamp (injective for (year, month)). -/
def monthIndex (t : ℤ) : ℤ :=
  let ym := civilYM (dayIndex t)
  ym.1 * 12 + ym.2

/-- Distinct group keys in order of first occurrence (`groupby` key set; the
claims are insensitive to key order). -/
def distinctKeys {κ : Type} [DecidableEq κ] (ks : List κ) : List κ :=
  ks.foldl (fun acc k => if k ∈ acc then acc else acc ++ [k]) []

/-- One row of the daily/monthly `resample` tables (`fillna(0)` makes the
zero defaults of empty buckets explicit). -/
structure TimeRow where
  pnl : ℚ := 0
  trades : ℕ := 0
  win_rate : ℚ := 0
deriving DecidableEq

/-- Rows of `resample` over a key function: one row per key in the dense range
from the smallest to the largest occurring key, as pandas resampling produces. -/
def resampleRows (key : ℤ → ℤ) (ts : List Trade) : List (ℤ × TimeRow) :=
  let ks := ts.map fun t => key t.exit_time
  let lo := ks.foldl min (ks.headD 0)
  let hi := ks.foldl max (ks.headD 0)
  (List.range (hi - lo + 1).toNat).map fun j =>
    let d := lo + j
    let rows := ts.filter fun t => key t.exit_time = d
    (d, { pnl := (rows.map Trade.pnl).sum
          trades := rows.length
          win_rate :=
            if 0 < rows.length then
              ((rows.filter fun t => 0 < t.pnl).length : ℚ) / rows.length * 100
            else 0 })

/-- `_calculate_time_based_stats`: daily table. -/
def dailyStats (ts : List Trade) : List (ℤ × TimeRow) := resampleRows dayIndex ts

/-- `_calculate_time_based_stats`: monthly table. -/
def monthlyStats (ts : List Trade) : List (ℤ × TimeRow) := resampleRows monthIndex ts

/-- Population variance (`np.std(xs)**2`, ddof = 0); `np.std(xs) != 0` is
equivalent to `popVar xs ≠ 0`. -/
def popVar (l : List ℚ) : ℚ :=
  let m := npMeanQ l
  (l.map fun x => (x - m) ^ 2).sum / l.length

/-- `np.mean` of a float list: the mean of an empty array is `nan` (with a
runtime warning), not an exception. -/
def npMeanF (l : List ℚ) : PyFloat :=
  if l = [] then .nan else .fin (npMeanQ l)

/-- Insert into a sorted rational list (ascending). -/
def insertQ (x : ℚ) : List ℚ → List ℚ
  | [] => [x]
  | y :: ys => if x ≤ y then x :: y :: ys else y :: insertQ x ys

/-- Ascending insertion sort on rationals (`np.percentile` sorts its input). -/
def sortQ : List ℚ → List ℚ
  | [] => []
  | x :: xs => insertQ x (sortQ xs)

/-- `np.percentile(l, p)` with the default linear interpolation (call sites
guarantee a non-empty list). -/
def percentileNp (l : List ℚ) (p : ℚ) : ℚ :=
  let s := sortQ l
  let h := ((l.length : ℚ) - 1) * p / 100
  let i := (⌊h⌋).toNat
  let f := h - ⌊h⌋
  match s.get? i, s.get? (i + 1) with
  | some a, some b => a + f * (b - a)
  | some a, none => a
  | _, _ => 0

/-- Total order used by pandas on non-`nan` floats: `-inf < finite < inf`
(`nan`/`irr` never reach the sort: callers filter `nan` out and no `irr` value
enters a column). -/
def pyLeB : PyFloat → PyFloat → Bool
  | .ninf, _ => true
  | _, .inf => true
  | .fin a, .fin b => a ≤ b
  | _, _ => false

/-- Insert into a list sorted by `pyLeB`. -/
def insertPyF (x : PyFloat) : List PyFloat → List PyFloat
  | [] => [x]
  | y :: ys => if pyLeB x y then x :: y :: ys else y :: insertPyF x ys

/-- Insertion sort by `pyLeB`. -/
def sortPyF : List PyFloat → List PyFloat
  | [] => []
  | x :: xs => insertPyF x (sortPyF xs)

/-- The finite part of a `PyFloat` list. -/
def finParts (l : List PyFloat) : List ℚ :=
  l.filterMap fun v => match v with | .fin q => some q | _ => none

/-- True if the value is one of the IEEE specials (or symbolic). -/
def nonFinite : PyFloat → Bool
  | .fin _ => false
  | _ => true

/-- pandas `Series.mean()` (skipna): `nan` entries are skipped; an all-`nan`
series has mean `nan`; `inf` and `-inf` together give `nan`, one of them alone
dominates. -/
def pdMean (vs : List PyFloat) : PyFloat :=
  let v := vs.filter (· ≠ .nan)
  if v = [] then .nan
  else if .inf ∈ v ∧ .ninf ∈ v then .nan
  else if .inf ∈ v then .inf
  else if .ninf ∈ v then .ninf
  else .fin (npMeanQ (finParts v))

/-- Mean of two sorted neighbours for the even-length median case, with IEEE
addition on the specials. -/
def pyMid : PyFloat → PyFloat → PyFloat
  | .fin a, .fin b => .fin ((a + b) / 2)
  | .inf, .ninf => .nan
  | .ninf, .inf => .nan
  | .inf, _ => .inf
  | _, .inf => .inf
  | .ninf, _ => .ninf
  | _, .ninf => .ninf
  | _, _ => .nan

/-- pandas `Series.median()` (skipna). -/
def pdMedian (vs : List PyFloat) : PyFloat :=
  let v := vs.filter (· ≠ .nan)
  if v = [] then .nan
  else
    let s := sortPyF v
    let n := s.length
    if n % 2 = 1 then s.getD (n / 2) .nan
    else pyMid (s.getD (n / 2 - 1) .nan) (s.getD (n / 2) .nan)

/-- Sample variance with ddof = 1 (squared pandas `Series.std()`). -/
def sampleVar (l : List ℚ) : ℚ :=
  let m := npMeanQ l
  (l.map fun x => (x - m) ^ 2).sum / ((l.length : ℚ) - 1)

/-- pandas `Series.std()` (skipna, ddof = 1): `nan` for fewer than two non-`nan`
entries or in the presence of `±inf`; otherwise `√variance`, represented as
`irr var var` (`var / √var = √var`) when nonzero. -/
def pdStd (vs : List PyFloat) : PyFloat :=
  let v := vs.filter (· ≠ .nan)
  if v.length ≤ 1 then .nan
  else if v.any nonFinite then .nan
  else
    let var := sampleVar (finParts v)
    if var = 0 then .fin 0 else .irr var var

/-- pandas `Series.min()` (skipna). -/
def pdMin (vs : List PyFloat) : PyFloat :=
  let v := vs.filter (· ≠ .nan)
  match v with
  | [] => .nan
  | x :: xs => xs.foldl (fun acc y => if pyLeB y acc then y else acc) x

/-- pandas `Series.max()` (skipna). -/
def pdMax (vs : List PyFloat) : PyFloat :=
  let v := vs.filter (· ≠ .nan)
  match v with
  | [] => .nan
  | x :: xs => xs.foldl (fun acc y => if pyLeB acc y then y else acc) x

/-- `scipy.stats.pearsonr` (first component): raises `ValueError` for samples
of length below two; returns `nan` (with a warning) for constant or non-finite
input; otherwise `r = num / √(dx·dy)`, kept in exact symbolic form. -/
def pearsonrF (xs ys : List PyFloat) : Except String PyFloat :=
  if xs.length < 2 then .error "x and y must have length at least 2."
  else if (xs ++ ys).any nonFinite then .ok .nan
  else
    let xq := finParts xs
    let yq := finParts ys
    let xm := npMeanQ xq
    let ym := npMeanQ yq
    let num := (List.zipWith (fun a b => (a - xm) * (b - ym)) xq yq).sum
    let dx := (xq.map fun a => (a - xm) ^ 2).sum
    let dy := (yq.map fun b => (b - ym) ^ 2).sum
    if dx * dy = 0 then .ok .nan else .ok (.irr num (dx * dy))

/-- Python `x < c` for a float model value against a rational bound
(comparisons against `nan` are false; `irr` never reaches this comparison). -/
def pyLtQ (x : PyFloat) (c : ℚ) : Prop :=
  match x with
  | .fin q => q < c
  | .ninf => True
  | _ => False

instance (x : PyFloat) (c : ℚ) : Decidable (pyLtQ x c) := by
  unfold pyLtQ; exact match x with
  | .fin q => inferInstanceAs (Decidable (q < c))
  | .ninf => inferInstanceAs (Decidable True)
  | .inf => inferInstanceAs (Decidable False)
  | .nan => inferInstanceAs (Decidable False)
  | .irr _ _ => inferInstanceAs (Decidable False)

/-- Python `abs(x) > c` for a nonnegative rational bound `c`: false for `nan`,
true for `±inf`; for `irr a b` (the value `a/√b`, `b > 0`), `|a/√b| > c ↔
a² > c²·b`. -/
def pyAbsGtQ (x : PyFloat) (c : ℚ) : Prop :=
  match x with
  | .fin q => c < |q|
  | .inf => True
  | .ninf => True
  | .nan => False
  | .irr a b => c ^ 2 * b < a ^ 2

instance (x : PyFloat) (c : ℚ) : Decidable (pyAbsGtQ x c) := by
  unfold pyAbsGtQ; exact match x with
  | .fin q => inferInstanceAs (Decidable (c < |q|))
  | .inf => inferInstanceAs (Decidable True)
  | .ninf => inferInstanceAs (Decidable True)
  | .nan => inferInstanceAs (Decidable False)
  | .irr a b => inferInstanceAs (Decidable (c ^ 2 * b < a ^ 2))

/-- Python `x > 0` for a float model value: for `irr a b` the sign is the sign
of `a`. -/
def pyGtZero (x : PyFloat) : Prop :=
  match x with
  | .fin q => 0 < q
  | .inf => True
  | .ninf => False
  | .nan => False
  | .irr a _ => 0 < a

instance (x : PyFloat) : Decidable (pyGtZero x) := by
  unfold pyGtZero; exact match x with
  | .fin q => inferInstanceAs (Decidable (0 < q))
  | .inf => inferInstanceAs (Decidable True)
  | .ninf => inferInstanceAs (Decidable False)
  | .nan => inferInstanceAs (Decidable False)
  | .irr a _ => inferInstanceAs (Decidable (0 < a))

/-- The `summary` block of `get_overall_metrics`. -/
structure OverallSummary where
  total_trades : ℕ
  winning_trades : ℕ
  losing_trades : ℕ
  win_rate : ℚ
  profit_factor : PyFloat
  total_pnl : ℚ
  sharpe_ratio : PyFloat
  sortino_ratio : PyFloat
  max_drawdown : ℚ
  avg_winner : ℚ
  avg_loser : ℚ
  avg_duration_hours : ℚ
  max_duration_hours : ℚ
  min_duration_hours : ℚ
deriving DecidableEq

/-- The full result of `get_overall_metrics` (summary plus the daily/monthly
`time_analysis` tables). -/
structure OverallResult where
  summary : OverallSummary
  daily : List (ℤ × TimeRow)
  monthly : List (ℤ × TimeRow)
deriving DecidableEq

/-- `PerformanceAnalytics.get_overall_metrics`: `{}` (modelled `none`) when no
trades are loaded; otherwise every metric with its guarded sentinel.  The
Sortino branch follows the source exactly: with no negative returns
`np.std` of the empty slice is `nan`, the guard `nan != 0` is *true*, and the
ratio evaluates to `nan`. -/
def get_overall_metrics (ts : List Trade) : Except String (Option OverallResult) :=
  if ts = [] then .ok none
  else
    let n := ts.length
    let pnls := ts.map Trade.pnl
    let winning := (pnls.filter fun x => 0 < x).length
    let losing := (pnls.filter fun x => x < 0).length
    let total_pnl := pnls.sum
    let win_rate := if 0 < n then (winning : ℚ) / n * 100 else 0
    let gross_profit := (pnls.filter fun x => 0 < x).sum
    let gross_loss := |(pnls.filter fun x => x < 0).sum|
    let profit_factor : PyFloat :=
      if gross_loss ≠ 0 then .fin (gross_profit / gross_loss) else .inf
    let negs := pnls.filter fun x => x < 0
    let sharpe : PyFloat :=
      if 1 < n then
        (if popVar pnls ≠ 0 then .irr (npMeanQ pnls) (popVar pnls / 252) else .fin 0)
      else .fin 0
    let sortino : PyFloat :=
      if 1 < n then
        (if negs = [] then .nan
         else if popVar negs ≠ 0 then .irr (npMeanQ pnls) (popVar negs / 252)
         else .fin 0)
      else .fin 0
    let eqc := cumsum pnls
    let dd := List.zipWith (fun a b => a - b) (runningMax eqc) eqc
    let max_drawdown := if 0 < dd.length then npMax dd else 0
    let avg_winner := if 0 < winning then npMeanQ (pnls.filter fun x => 0 < x) else 0
    let avg_loser := if 0 < losing then npMeanQ negs else 0
    let durs := ts.map Trade.duration
    .ok (some
      { summary :=
          { total_trades := n
            winning_trades := winning
            losing_trades := losing
            win_rate := round2 win_rate
            profit_factor := roundPy2 profit_factor
            total_pnl := round2 total_pnl
            sharpe_ratio := roundPy2 sharpe
            sortino_ratio := roundPy2 sortino
            max_drawdown := round2 max_drawdown
            avg_winner := round2 avg_winner
            avg_loser := round2 avg_loser
            avg_duration_hours := round2 (npMeanQ durs)
            max_duration_hours := round2 (npMax durs)
            min_duration_hours := round2 (npMin durs) }
        daily := dailyStats ts
        monthly := monthlyStats ts })

/-- A `groupby(...)['pnl'].agg(['mean', 'count', 'sum'])` row. -/
structure AggMCS where
  mean : ℚ
  count : ℕ
  sum : ℚ
deriving DecidableEq

/-- Aggregate one (non-empty) group of trades. -/
def aggMCS (rows : List Trade) : AggMCS :=
  { mean := npMeanQ (rows.map Trade.pnl)
    count := rows.length
    sum := (rows.map Trade.pnl).sum }

/-- A row of the `position_analysis` table (P&L count/mean/sum and mean
duration, rounded to 2 decimals). -/
structure PosAgg where
  pnl_count : ℕ
  pnl_mean : ℚ
  pnl_sum : ℚ
  duration_mean : ℚ
deriving DecidableEq

/-- A row of the `exit_analysis` table. -/
structure ExitAgg where
  pnl_count : ℕ
  pnl_mean : ℚ
  pnl_sum : ℚ
deriving DecidableEq

/-- The result of `get_pattern_analysis`. -/
structure PatternResult where
  hourly : List (ℤ × AggMCS)
  daily : List (String × AggMCS)
  position_analysis : List (String × PosAgg)
  exit_analysis : List (String × ExitAgg)
  risk_reward_pnl : PyFloat
  duration_pnl : PyFloat
deriving DecidableEq

/-- `PerformanceAnalytics.get_pattern_analysis`: `{}` when no trades are
loaded; otherwise grouped P&L tables and the two Pearson correlations, whose
scipy implementation *raises* on samples of length below two. -/
def get_pattern_analysis (ts : List Trade) : Except String (Option PatternResult) :=
  if ts = [] then .ok none
  else do
    let hourly := (distinctKeys (ts.map fun t => hourOfDay t.entry_time)).map fun k =>
      (k, aggMCS (ts.filter fun t => hourOfDay t.entry_time = k))
    let daily := (distinctKeys (ts.map fun t => dayName (weekdayIndex t.entry_time))).map fun k =>
      (k, aggMCS (ts.filter fun t => dayName (weekdayIndex t.entry_time) = k))
    let position_analysis :=
      (distinctKeys (ts.map Trade.position_type)).map fun k =>
        let rows := ts.filter fun t => t.position_type = k
        (k, { pnl_count := rows.length
              pnl_mean := round2 (npMeanQ (rows.map Trade.pnl))
              pnl_sum := round2 (rows.map Trade.pnl).sum
              duration_mean := round2 (npMeanQ (rows.map Trade.duration)) : PosAgg })
    let exit_analysis :=
      (distinctKeys (ts.map Trade.exit_reason)).map fun k =>
        let rows := ts.filter fun t => t.exit_reason = k
        (k, { pnl_count := rows.length
              pnl_mean := round2 (npMeanQ (rows.map Trade.pnl))
              pnl_sum := round2 (rows.map Trade.pnl).sum : ExitAgg })
    let rr ← pearsonrF (ts.map Trade.risk_reward) (ts.map fun t => .fin t.pnl)
    let dc ← pearsonrF (ts.map fun t => .fin t.duration) (ts.map fun t => .fin t.pnl)
    .ok (some
      { hourly := hourly, daily := daily, position_analysis := position_analysis,
        exit_analysis := exit_analysis,
        risk_reward_pnl := roundPy2 rr, duration_pnl := roundPy2 dc })

/-- The result of `get_risk_metrics`. -/
structure RiskResult where
  var_95 : ℚ
  var_99 : ℚ
  cvar_95 : PyFloat
  cvar_99 : PyFloat
  risk_per_trade : ℚ
  rr_mean : PyFloat
  rr_median : PyFloat
  rr_std : PyFloat
  rr_min : PyFloat
  rr_max : PyFloat
deriving DecidableEq

/-- `PerformanceAnalytics.get_risk_metrics`: `{}` when no trades are loaded;
otherwise percentile VaR/CVaR over the P&L distribution, mean absolute risk per
trade, and descriptive statistics of the risk-reward ratio. -/
def get_risk_metrics (ts : List Trade) : Except String (Option RiskResult) :=
  if ts = [] then .ok none
  else
    let pnls := ts.map Trade.pnl
    let var_95 := percentileNp pnls 5
    let var_99 := percentileNp pnls 1
    let cvar_95 := npMeanF (pnls.filter fun x => x ≤ var_95)
    let cvar_99 := npMeanF (pnls.filter fun x => x ≤ var_99)
    let risk := npMeanQ (ts.map fun t => |t.entry_price - t.stop_loss|)
    let rr := ts.map Trade.risk_reward
    .ok (some
      { var_95 := round2 var_95
        var_99 := round2 var_99
        cvar_95 := roundPy2 cvar_95
        cvar_99 := roundPy2 cvar_99
        risk_per_trade := round5 risk
        rr_mean := roundPy2 (pdMean rr)
        rr_median := roundPy2 (pdMedian rr)
        rr_std := roundPy2 (pdStd rr)
        rr_min := roundPy2 (pdMin rr)
        rr_max := roundPy2 (pdMax rr) })

/-- The result of `get_optimization_suggestions`. -/
structure OptimizationResult where
  suggestions : List String
  warnings : List String
deriving DecidableEq

/-- `PerformanceAnalytics.get_optimization_suggestions`: `{}` when no trades
are loaded; otherwise rule-based warnings/suggestions.  The duration/P&L
Pearson correlation is computed unconditionally, so scipy's length guard
*raises* on a single-trade set.  (Apostrophes in the source's literal strings
are written with the `\x27` escape.) -/
def get_optimization_suggestions (ts : List Trade) :
    Except String (Option OptimizationResult) :=
  if ts = [] then .ok none
  else do
    let win_rate := ((ts.filter fun t => 0 < t.pnl).length : ℚ) / ts.length * 100
    let warnings1 :=
      if win_rate < 40 then ["Low win rate suggests entry criteria may need refinement"]
      else []
    let avg_rr := pdMean (ts.map Trade.risk_reward)
    let warnings2 :=
      if pyLtQ avg_rr (3/2) then ["Risk-reward ratio is below recommended 1.5:1"]
      else []
    let hp := (distinctKeys (ts.map fun t => hourOfDay t.entry_time)).map fun k =>
      (k, npMeanQ ((ts.filter fun t => hourOfDay t.entry_time = k).map Trade.pnl))
    let hpMean := npMeanQ (hp.map Prod.snd)
    let best := hp.filter fun kv => hpMean < kv.2
    let worst := hp.filter fun kv => kv.2 < hpMean
    let sugg1 :=
      if best ≠ [] then
        ["Consider focusing on trading during hours: " ++
          String.intercalate ", " (best.map fun kv => toString kv.1)]
      else []
    let sugg2 :=
      if worst ≠ [] then
        ["Consider avoiding trading during hours: " ++
          String.intercalate ", " (worst.map fun kv => toString kv.1)]
      else []
    let dcorr ← pearsonrF (ts.map fun t => .fin t.duration) (ts.map fun t => .fin t.pnl)
    let sugg3 :=
      if pyAbsGtQ dcorr (3/10) then
        if pyGtZero dcorr then
          ["Consider holding profitable trades longer as there\x27s a positive correlation with duration"]
        else
          ["Consider tightening stops as longer trades tend to be less profitable"]
      else []
    let pp := (distinctKeys (ts.map Trade.position_type)).map fun k =>
      (k, npMeanQ ((ts.filter fun t => t.position_type = k).map Trade.pnl))
    let sugg4 :=
      if 1 < pp.length then
        let means := pp.map Prod.snd
        let mx := npMax means
        let mn := npMin means
        let better := ((pp.find? fun kv => kv.2 = mx).map Prod.fst).getD ""
        if 2 * mn < mx then
          ["Strategy shows better performance on " ++ better ++ " positions"]
        else []
      else []
    .ok (some { suggestions := sugg1 ++ sugg2 ++ sugg3 ++ sugg4,
                warnings := warnings1 ++ warnings2 })

/-! ### Concrete data used by witnesses and counterexamples -/

/-- A signal source that never reaches the confidence threshold (used to make
witness runs concrete). -/
def quietSignal : List Candle → TradingSignal := fun _ =>
  { confidence := 0, trend := "NEUTRAL", stop_loss := 0, target_price := 0 }

/-- Witness position for the stop/target tie-break: a long whose stop (1.2)
lies above its target (1.1), so a close of 1.15 touches both. -/
def c1Pos : Position :=
  { symbol := "EURUSD", entry_price := 1, stop_loss := 6/5, target_price := 11/10,
    size := 1, entry_time := 0, position_type := "long" }

/-- Witness candles: the close of candle 1 is 1.15. -/
def c1Candles : List Candle := [⟨0, 1⟩, ⟨60, 23/20⟩]

/-- Witness simulation state with `c1Pos` open. -/
def c1State : SimState := ⟨10000, [c1Pos], []⟩

/-- A closed long position with P&L +50 (entry 1, exit 1.05, size 1000). -/
def pA : Position :=
  ({ symbol := "EURUSD", entry_price := 1, stop_loss := 9/10, target_price := 21/20,
     size := 1000, entry_time := 0, position_type := "long" } : Position).close_position
    (21/20) 3600 "take_profit"

/-- A closed long position with P&L -20 (entry 1.1, exit 1.05, size 400). -/
def pB : Position :=
  ({ symbol := "EURUSD", entry_price := 11/10, stop_loss := 21/20, target_price := 6/5,
     size := 400, entry_time := 3600, position_type := "long" } : Position).close_position
    (21/20) 7200 "stop_loss"

/-- A closed long position with P&L exactly 0 (exit at entry). -/
def pC : Position :=
  ({ symbol := "EURUSD", entry_price := 1, stop_loss := 9/10, target_price := 6/5,
     size := 100, entry_time := 0, position_type := "long" } : Position).close_position
    1 3600 "end_of_test"

/-- A closed long position with P&L 0.004, which 2-decimal rounding sends to 0
(entry 1, exit 1.0004, size 10). -/
def pTiny : Position :=
  ({ symbol := "EURUSD", entry_price := 1, stop_loss := 9/10, target_price := 2,
     size := 10, entry_time := 0, position_type := "long" } : Position).close_position
    (1 + 1/2500) 3600 "take_profit"

/-- A closed long position with P&L exactly 0.5, unchanged by 2-decimal
rounding (entry 1, exit 1.05, size 10). -/
def pHalf : Position :=
  ({ symbol := "EURUSD", entry_price := 1, stop_loss := 9/10, target_price := 2,
     size := 10, entry_time := 0, position_type := "long" } : Position).close_position
    (21/20) 3600 "take_profit"

/-- A closed winning trade used as analytics input. -/
def tA : Trade :=
  { entry_time := 0, exit_time := 3600, symbol := "EURUSD", position_type := "long",
    entry_price := 1, exit_price := some (11/10), pnl := 1, size := 1,
    stop_loss := 1/2, target_price := 11/10, exit_reason := "take_profit" }

/-- A closed losing trade used as analytics input. -/
def tB : Trade :=
  { entry_time := 1800, exit_time := 7200, symbol := "EURUSD", position_type := "short",
    entry_price := 1, exit_price := some (11/10), pnl := -1, size := 1,
    stop_loss := 6/5, target_price := 1/2, exit_reason := "stop_loss" }

/-- The `Trade` that `load_trades` reconstructs from `generate_report`'s dict
for a closed position: times survive the ISO round-trip, prices carry the
report's 5-decimal rounding, P&L its 2-decimal rounding, `size` defaults to 0
(the report emits no `size` key), and `exit_price` passes two truthiness
tests (before and after rounding). -/
def tradeOfClosedPosition (p : Position) : Trade :=
  { entry_time := p.entry_time
    exit_time := p.exit_time.getD 0
    symbol := p.symbol
    position_type := p.position_type
    entry_price := round5 p.entry_price
    exit_price := match p.exit_price with
      | some q => if q = 0 then none else if round5 q = 0 then none else some (round5 q)
      | none => none
    pnl := round2 p.pnl
    size := 0
    stop_loss := round5 p.stop_loss
    target_price := round5 p.target_price
    exit_reason := p.exit_reason.getD "" }

/-- The (total trades, win rate, total P&L) triple obtained by feeding the
`trades` list of `generate_report r` back through `load_trades` and querying
`get_overall_metrics`; `none` when the round trip produces no summary. -/
def roundTripSummary (r : BacktestResult) : Option (ℕ × ℚ × ℚ) :=
  (load_trades (Backtester.generate_report r).trades).bind fun ts =>
    match get_overall_metrics ts with
    | .ok (some m) => some (m.summary.total_trades, m.summary.win_rate, m.summary.total_pnl)
    | _ => none

/-- The round-trip property of the spec: the reloaded trade set reproduces the
report summary's `total_trades`, `win_rate` and `total_pnl`. -/
def roundTripAgrees (r : BacktestResult) : Prop :=
  roundTripSummary r =
    some ((Backtester.generate_report r).summary.total_trades,
          (Backtester.generate_report r).summary.win_rate,
          (Backtester.generate_report r).summary.total_pnl)

instance (r : BacktestResult) : Decidable (roundTripAgrees r) := by
  unfold roundTripAgrees; infer_instance

/-! ### Lemmas about the exit loop -/

theorem processExits_closed_mem (price : ℚ) (t : ℤ) (l : List Position)
    (p : Position) (hmem : p ∈ l) (hstop : stopHit p price) :
    p.close_position price t "stop_loss" ∈ (processExits price t l).closed := by
  induction l with
  | nil => cases hmem
  | cons q qs ih =>
    rcases List.mem_cons.mp hmem with heq | hmem
    · subst heq
      simp only [processExits, if_pos hstop]
      exact List.mem_cons_self _ _
    · have hrec := ih hmem
      simp only [processExits]
      split
      · exact List.mem_cons_of_mem _ hrec
      · split
        · exact List.mem_cons_of_mem _ hrec
        · exact hrec

theorem processExits_remaining_length_le (price : ℚ) (t : ℤ) (l : List Position) :
    (processExits price t l).remaining.length ≤ l.length := by
  induction l with
  | nil => simp [processExits]
  | cons q qs ih =>
    simp only [processExits]
    split
    · exact Nat.le_succ_of_le ih
    · split
      · exact Nat.le_succ_of_le ih
      · simpa using Nat.succ_le_succ ih

theorem stepCandle_closed (cfg : Backtester) (sig : List Candle → TradingSignal)
    (symbol : String) (candles : List Candle) (s : SimState) (i : ℕ) :
    (stepCandle cfg sig symbol candles s i).closed =
      s.closed ++
        (processExits (candles.getD i default).close (candles.getD i default).time
          s.open_positions).closed := by
  simp only [stepCandle]
  repeat first | rfl | split

theorem stepCandle_open_length_le (cfg : Backtester)
    (sig : List Candle → TradingSignal) (symbol : String) (candles : List Candle)
    (s : SimState) (i : ℕ) (h : s.open_positions.length ≤ cfg.max_positions) :
    (stepCandle cfg sig symbol candles s i).open_positions.length ≤
      cfg.max_positions := by
  have hrem := processExits_remaining_length_le
    (candles.getD i default).close (candles.getD i default).time s.open_positions
  simp only [stepCandle]
  split
  · exact le_trans hrem h
  · next hcap =>
    have hlt : (processExits (candles.getD i default).close
        (candles.getD i default).time s.open_positions).remaining.length <
        cfg.max_positions := Nat.lt_of_not_le hcap
    repeat' split
    all_goals
      first
        | exact le_trans hrem h
        | simpa using Nat.succ_le_of_lt hlt

theorem foldl_stepCandle_open_length_le (cfg : Backtester)
    (sig : List Candle → TradingSignal) (symbol : String) (candles : List Candle) :
    ∀ (l : List ℕ) (s : SimState), s.open_positions.length ≤ cfg.max_positions →
      ((l.foldl (stepCandle cfg sig symbol candles) s).open_positions.length ≤
        cfg.max_positions) := by
  intro l
  induction l with
  | nil => intro s h; exact h
  | cons i l ih =>
    intro s h
    exact ih _ (stepCandle_open_length_le cfg sig symbol candles s i h)

/-- C1: during `run_backtest`, if at a candle an open position's stop-loss
condition and take-profit condition are both satisfied by that candle's close
price, the loop body (`stepCandle`, which appends this candle's closed
positions to `result.positions`) closes the position with exit reason
`stop_loss` and exit price equal to the candle's close: the stop-loss check
comes first, for every position in the open list and every candle index. -/
theorem stop_loss_checked_before_take_profit
    (cfg : Backtester) (sig : List Candle → TradingSignal) (symbol : String)
    (candles : List Candle) (s : SimState) (i : ℕ) (p : Position)
    (hmem : p ∈ s.open_positions)
    (hstop : stopHit p (candles.getD i default).close)
    (htp : takeProfitHit p (candles.getD i default).close) :
    p.close_position (candles.getD i default).close (candles.getD i default).time
        "stop_loss" ∈ (stepCandle cfg sig symbol candles s i).closed ∧
    (p.close_position (candles.getD i default).close (candles.getD i default).time
        "stop_loss").exit_reason = some "stop_loss" ∧
    (p.close_position (candles.getD i default).close (candles.getD i default).time
        "stop_loss").exit_price = some (candles.getD i default).close := by
  clear htp
  refine ⟨?_, rfl, rfl⟩
  rw [stepCandle_closed]
  exact List.mem_append_right _ (processExits_closed_mem _ _ _ p hmem hstop)

/-- Witness for C1: at candle index 1 of `c1Candles` (close 1.15) the open
position `c1Pos` satisfies both exit conditions, and the step closes it as a
stop-loss at that close. -/
theorem stop_loss_checked_before_take_profit_witness :
    c1Pos.close_position (c1Candles.getD 1 default).close
        (c1Candles.getD 1 default).time "stop_loss" ∈
      (stepCandle {} quietSignal "EURUSD" c1Candles c1State 1).closed ∧
    (c1Pos.close_position (c1Candles.getD 1 default).close
        (c1Candles.getD 1 default).time "stop_loss").exit_reason = some "stop_loss" ∧
    (c1Pos.close_position (c1Candles.getD 1 default).close
        (c1Candles.getD 1 default).time "stop_loss").exit_price =
      some (c1Candles.getD 1 default).close :=
  stop_loss_checked_before_take_profit {} quietSignal "EURUSD" c1Candles c1State 1
    c1Pos (List.mem_singleton.mpr rfl)
    (by norm_num [stopHit, c1Pos, c1Candles])
    (by norm_num [takeProfitHit, c1Pos, c1Candles])

/-- C4 counterexample: it is *not* the case that `run_backtest` leaves the
shared `Backtester` instance unchanged — lines 119-122 of the source assign the
call's parameters to `self`, so a run with `max_positions = 1` changes the
field a concurrent run with the default configuration would read. -/
theorem run_backtest_writes_shared_state :
    ¬ ∀ (bt : Backtester) (p : BacktestParams) (sig : List Candle → TradingSignal)
        (symbol : String) (candles : List Candle),
        (bt.run_backtest p sig symbol candles).1 = bt := by
  intro h
  have h1 := h {} { max_positions := 1 } quietSignal "EURUSD" []
  have h2 : (({} : Backtester).run_backtest { max_positions := 1 } quietSignal
      "EURUSD" []).1.max_positions = ({} : Backtester).max_positions :=
    congrArg Backtester.max_positions h1
  simp [Backtester.run_backtest] at h2

/-- C4 amended: each `run_backtest` call owns its simulation state — its
outcome (the `BacktestResult`, built from the call-local balance and
open-position list) is independent of the prior state of the shared
`Backtester` instance — but the call does write shared state: it overwrites the
instance's `initial_balance`/`position_size`/`max_positions` configuration
fields with its parameters, which a concurrent run would observe. -/
theorem run_backtest_state_ownership
    (bt bt' : Backtester) (p : BacktestParams) (sig : List Candle → TradingSignal)
    (symbol : String) (candles : List Candle) :
    (bt.run_backtest p sig symbol candles).1 =
      { initial_balance := p.initial_balance, position_size := p.position_size,
        max_positions := p.max_positions } ∧
    (bt.run_backtest p sig symbol candles).2 =
      (bt'.run_backtest p sig symbol candles).2 :=
  ⟨rfl, rfl⟩

/-- C8: `run_backtest` fails with the "no data" `ValueError` whenever the
market-data provider returns an empty candle series, and no `BacktestResult`
is produced in that case. -/
theorem run_backtest_empty_data_error
    (bt : Backtester) (p : BacktestParams) (sig : List Candle → TradingSignal)
    (symbol : String) :
    (bt.run_backtest p sig symbol []).2 =
      .error ("No data available for " ++ symbol) ∧
    ∀ r : BacktestResult, (bt.run_backtest p sig symbol []).2 ≠ .ok r :=
  ⟨rfl, fun r h => by simp [Backtester.run_backtest, Backtester.run_backtest_core] at h⟩

/-- C9: `calculate_metrics` on a result whose closed-position list is empty
returns without any change (so every metric field keeps its value), and the
`__init__` defaults it then keeps are the zero/empty values. -/
theorem calculate_metrics_empty_noop (r : BacktestResult) (h : r.positions = []) :
    r.calculate_metrics = r ∧
    ({} : BacktestResult).total_trades = 0 ∧
    ({} : BacktestResult).winning_trades = 0 ∧
    ({} : BacktestResult).losing_trades = 0 ∧
    ({} : BacktestResult).total_pnl = 0 ∧
    ({} : BacktestResult).win_rate = 0 ∧
    ({} : BacktestResult).profit_factor = .fin 0 ∧
    ({} : BacktestResult).avg_win = 0 ∧
    ({} : BacktestResult).avg_loss = 0 ∧
    ({} : BacktestResult).largest_win = 0 ∧
    ({} : BacktestResult).largest_loss = 0 ∧
    ({} : BacktestResult).max_drawdown = 0 ∧
    ({} : BacktestResult).equity_curve = [] ∧
    ({} : BacktestResult).drawdown_curve = [] := by
  refine ⟨?_, rfl, rfl, rfl, rfl, rfl, rfl, rfl, rfl, rfl, rfl, rfl, rfl, rfl⟩
  simp [BacktestResult.calculate_metrics, h]

/-- Witness for C9: a freshly constructed `BacktestResult` has an empty
position list, and `calculate_metrics` leaves it untouched. -/
theorem calculate_metrics_empty_noop_witness :
    ({} : BacktestResult).calculate_metrics = {} ∧
    ({} : BacktestResult).total_trades = 0 ∧
    ({} : BacktestResult).winning_trades = 0 ∧
    ({} : BacktestResult).losing_trades = 0 ∧
    ({} : BacktestResult).total_pnl = 0 ∧
    ({} : BacktestResult).win_rate = 0 ∧
    ({} : BacktestResult).profit_factor = .fin 0 ∧
    ({} : BacktestResult).avg_win = 0 ∧
    ({} : BacktestResult).avg_loss = 0 ∧
    ({} : BacktestResult).largest_win = 0 ∧
    ({} : BacktestResult).largest_loss = 0 ∧
    ({} : BacktestResult).max_drawdown = 0 ∧
    ({} : BacktestResult).equity_curve = [] ∧
    ({} : BacktestResult).drawdown_curve = [] :=
  calculate_metrics_empty_noop {} rfl

/-- C5: throughout any run of `run_backtest` the number of simultaneously open
positions never exceeds `max_positions` (the state after any number of loop
iterations, starting from the empty open list, keeps
`open_positions.length ≤ max_positions`; at most one position can open per
candle since the signal source is queried once per candle, so with
`max_positions = 1` a second qualifying signal on the same candle cannot open a
second position); moreover whenever the open-position count after exit
processing is at or above `max_positions`, new-entry evaluation is skipped for
that candle (the open list is exactly the post-exit list) while exit evaluation
still applies (the closed accumulator still grows by that candle's exits). -/
theorem max_positions_never_exceeded
    (cfg : Backtester) (sig : List Candle → TradingSignal) (symbol : String)
    (candles : List Candle) (k : ℕ) :
    (simStateAfter cfg sig symbol candles k).open_positions.length ≤
      cfg.max_positions ∧
    (∀ (s : SimState) (i : ℕ),
        cfg.max_positions ≤ (processExits (candles.getD i default).close
            (candles.getD i default).time s.open_positions).remaining.length →
        (stepCandle cfg sig symbol candles s i).open_positions =
          (processExits (candles.getD i default).close (candles.getD i default).time
            s.open_positions).remaining ∧
        (stepCandle cfg sig symbol candles s i).closed =
          s.closed ++ (processExits (candles.getD i default).close
            (candles.getD i default).time s.open_positions).closed) := by
  constructor
  · exact foldl_stepCandle_open_length_le cfg sig symbol candles _ _ (Nat.zero_le _)
  · intro s i hcap
    refine ⟨?_, stepCandle_closed cfg sig symbol candles s i⟩
    simp only [stepCandle]
    rw [if_pos hcap]

/-- Witness for C5: after one loop iteration of a default-configured run the
open-position count is within the bound, and with `max_positions = 0` the
at-capacity branch demonstrably skips entry evaluation while exits apply. -/
theorem max_positions_never_exceeded_witness :
    (simStateAfter {} quietSignal "EURUSD" c1Candles 1).open_positions.length ≤
      ({} : Backtester).max_positions ∧
    ((stepCandle ⟨10000, 1/50, 0⟩ quietSignal "EURUSD" c1Candles ⟨0, [], []⟩ 1).open_positions =
      (processExits (c1Candles.getD 1 default).close (c1Candles.getD 1 default).time
        ([] : List Position)).remaining ∧
     (stepCandle ⟨10000, 1/50, 0⟩ quietSignal "EURUSD" c1Candles ⟨0, [], []⟩ 1).closed =
      [] ++ (processExits (c1Candles.getD 1 default).close (c1Candles.getD 1 default).time
        ([] : List Position)).closed) :=
  ⟨(max_positions_never_exceeded {} quietSignal "EURUSD" c1Candles 1).1,
   (max_positions_never_exceeded ⟨10000, 1/50, 0⟩ quietSignal "EURUSD" c1Candles 1).2
     ⟨0, [], []⟩ 1 (Nat.zero_le _)⟩

/-! ### Lemmas about cumulative sums, running maxima and drawdowns -/

theorem cumsumFrom_length (l : List ℚ) : ∀ a, (cumsumFrom a l).length = l.length := by
  induction l with
  | nil => intro a; rfl
  | cons x xs ih => intro a; simp [cumsumFrom, ih]

theorem cumsum_length (l : List ℚ) : (cumsum l).length = l.length :=
  cumsumFrom_length l 0

theorem cumsumFrom_get (l : List ℚ) :
    ∀ (a : ℚ) (i : ℕ) (h : i < (cumsumFrom a l).length),
      (cumsumFrom a l).get ⟨i, h⟩ = a + (l.take (i + 1)).sum := by
  induction l with
  | nil => intro a i h; simp [cumsumFrom] at h
  | cons x xs ih =>
    intro a i h
    cases i with
    | zero => simp [cumsumFrom]
    | succ i =>
      have := ih (a + x) i (by simpa [cumsumFrom] using h)
      simp only [cumsumFrom, List.get_cons_succ] at this ⊢
      rw [this, List.take_succ_cons, List.sum_cons]
      ring

theorem cumsumFrom_getLast? (l : List ℚ) (hne : l ≠ []) :
    ∀ a, (cumsumFrom a l).getLast? = some (a + l.sum) := by
  induction l with
  | nil => exact absurd rfl hne
  | cons x xs ih =>
    intro a
    cases xs with
    | nil => simp [cumsumFrom]
    | cons y ys =>
      have htl := ih (by simp) (a + x)
      rw [show cumsumFrom a (x :: y :: ys) =
            (a + x) :: (a + x + y) :: cumsumFrom (a + x + y) ys from rfl,
          List.getLast?_cons_cons,
          show (a + x + y) :: cumsumFrom (a + x + y) ys =
            cumsumFrom (a + x) (y :: ys) from rfl,
          htl]
      congr 1
      simp only [List.sum_cons]
      ring

theorem le_foldl_max_init (l : List ℚ) : ∀ b : ℚ, b ≤ l.foldl max b := by
  induction l with
  | nil => intro b; exact le_refl b
  | cons x xs ih =>
    intro b
    exact le_trans (le_max_left b x) (ih (max b x))

theorem le_foldl_max_of_mem {a : ℚ} (l : List ℚ) (h : a ∈ l) :
    ∀ b : ℚ, a ≤ l.foldl max b := by
  induction l with
  | nil => cases h
  | cons x xs ih =>
    intro b
    rcases List.mem_cons.mp h with heq | hmem
    · subst heq
      exact le_trans (le_max_right b a) (le_foldl_max_init xs (max b a))
    · exact ih hmem (max b x)

theorem foldl_max_le (l : List ℚ) :
    ∀ b c : ℚ, b ≤ c → (∀ x ∈ l, x ≤ c) → l.foldl max b ≤ c := by
  induction l with
  | nil => intro b c hb _; exact hb
  | cons x xs ih =>
    intro b c hb hall
    exact ih (max b x) c (max_le hb (hall x (List.mem_cons_self x xs)))
      fun y hy => hall y (List.mem_cons_of_mem x hy)

theorem headD_mem {l : List ℚ} (hne : l ≠ []) : l.headD 0 ∈ l := by
  cases l with
  | nil => exact absurd rfl hne
  | cons x xs => exact List.mem_cons_self x xs

theorem le_npMax_of_mem {a : ℚ} {l : List ℚ} (h : a ∈ l) : a ≤ npMax l :=
  le_foldl_max_of_mem l h _

theorem npMax_le {l : List ℚ} (hne : l ≠ []) {c : ℚ} (hc : ∀ x ∈ l, x ≤ c) :
    npMax l ≤ c :=
  foldl_max_le l _ c (hc _ (headD_mem hne)) hc

theorem npMax_cons (x : ℚ) (t : List ℚ) : npMax (x :: t) = t.foldl max x := by
  simp [npMax, List.foldl, max_self]

theorem npMax_cons_of_le {x y : ℚ} {ys : List ℚ} (h : x ≤ y) :
    npMax (x :: y :: ys) = npMax (y :: ys) := by
  rw [npMax_cons, npMax_cons]
  simp [List.foldl, max_eq_right h, max_self]

theorem rmaxAux_length (xs : List ℚ) : ∀ m, (rmaxAux m xs).length = xs.length := by
  induction xs with
  | nil => intro m; rfl
  | cons y ys ih => intro m; simp [rmaxAux, ih]

theorem runningMax_length (l : List ℚ) : (runningMax l).length = l.length := by
  cases l with
  | nil => rfl
  | cons x xs => simp [runningMax, rmaxAux_length]

theorem rmaxAux_get (xs : List ℚ) :
    ∀ (m : ℚ) (i : ℕ) (h : i < (rmaxAux m xs).length),
      (rmaxAux m xs).get ⟨i, h⟩ = (xs.take (i + 1)).foldl max m := by
  induction xs with
  | nil => intro m i h; simp [rmaxAux] at h
  | cons y ys ih =>
    intro m i h
    cases i with
    | zero => simp [rmaxAux, List.foldl]
    | succ i =>
      have := ih (max m y) i (by simpa [rmaxAux] using h)
      simp only [rmaxAux, List.get_cons_succ] at this ⊢
      rw [this, List.take_succ_cons]
      rfl

theorem runningMax_get (l : List ℚ) (i : ℕ) (h : i < (runningMax l).length) :
    (runningMax l).get ⟨i, h⟩ = npMax (l.take (i + 1)) := by
  cases l with
  | nil => simp [runningMax] at h
  | cons x xs =>
    cases i with
    | zero => simp [runningMax, npMax_cons, List.foldl]
    | succ i =>
      have := rmaxAux_get xs x i (by simpa [runningMax, rmaxAux_length] using h)
      simp only [runningMax, List.get_cons_succ] at *
      rw [this, List.take_succ_cons, npMax_cons]

theorem cumsum_get (l : List ℚ) (i : ℕ) (h : i < (cumsum l).length) :
    (cumsum l).get ⟨i, h⟩ = (l.take (i + 1)).sum := by
  have := cumsumFrom_get l 0 i h
  simpa [cumsum] using this

theorem npMax_take_of_chain : ∀ (l : List ℚ), List.Chain' (· ≤ ·) l →
    ∀ (i : ℕ) (h : i < l.length), npMax (l.take (i + 1)) = l.get ⟨i, h⟩ := by
  intro l
  induction l with
  | nil => intro _ i h; simp at h
  | cons x xs ih =>
    intro hc i h
    cases i with
    | zero => simp [npMax_cons]
    | succ i =>
      cases xs with
      | nil => simp at h
      | cons y ys =>
        have hxy : x ≤ y := (List.chain'_cons.mp hc).1
        have hc' : List.Chain' (· ≤ ·) (y :: ys) := (List.chain'_cons.mp hc).2
        have hi : i < (y :: ys).length := by simpa using h
        calc npMax ((x :: y :: ys).take (i + 1 + 1))
            = npMax (x :: y :: ys.take i) := by rw [List.take_succ_cons, List.take_succ_cons]
          _ = npMax (y :: ys.take i) := npMax_cons_of_le hxy
          _ = npMax ((y :: ys).take (i + 1)) := by rw [List.take_succ_cons]
          _ = (y :: ys).get ⟨i, hi⟩ := ih hc' i hi
          _ = (x :: y :: ys).get ⟨i + 1, h⟩ := rfl

theorem calculate_metrics_fields (r : BacktestResult) (h : r.positions ≠ []) :
    r.calculate_metrics.equity_curve = cumsum (r.positions.map Position.pnl) ∧
    r.calculate_metrics.drawdown_curve =
      List.zipWith (fun a b => a - b)
        (runningMax (cumsum (r.positions.map Position.pnl)))
        (cumsum (r.positions.map Position.pnl)) ∧
    r.calculate_metrics.max_drawdown =
      npMax (List.zipWith (fun a b => a - b)
        (runningMax (cumsum (r.positions.map Position.pnl)))
        (cumsum (r.positions.map Position.pnl))) ∧
    r.calculate_metrics.total_pnl = (r.positions.map Position.pnl).sum ∧
    r.calculate_metrics.positions = r.positions := by
  refine ⟨?_, ?_, ?_, ?_, ?_⟩ <;> simp [BacktestResult.calculate_metrics, h]

/-- C6: after `calculate_metrics` on a non-empty closed-position list,
`equity_curve[i]` is the cumulative P&L over the first `i+1` closed positions
in close order, and the last element of `equity_curve` equals `total_pnl`. -/
theorem equity_curve_is_cumulative_pnl (r : BacktestResult) (h : r.positions ≠ []) :
    (∀ (i : ℕ) (hi : i < r.calculate_metrics.equity_curve.length),
        r.calculate_metrics.equity_curve.get ⟨i, hi⟩ =
          ((r.positions.map Position.pnl).take (i + 1)).sum) ∧
    r.calculate_metrics.equity_curve.getLast? =
      some r.calculate_metrics.total_pnl := by
  obtain ⟨heq, -, -, htot, -⟩ := calculate_metrics_fields r h
  constructor
  · intro i hi
    rw [List.get_of_eq heq]
    exact cumsum_get _ i _
  · rw [heq, htot]
    have hm : r.positions.map Position.pnl ≠ [] := by
      simpa [List.map_eq_nil_iff] using h
    have := cumsumFrom_getLast? (r.positions.map Position.pnl) hm 0
    simpa [cumsum] using this

/-- Witness for C6: on the two-position list `[pA, pB]` the last equity-curve
entry equals the total P&L, and the first entry is the first position's P&L. -/
theorem equity_curve_is_cumulative_pnl_witness :
    (BacktestResult.calculate_metrics { positions := [pA, pB] }).equity_curve.getLast? =
      some (BacktestResult.calculate_metrics { positions := [pA, pB] }).total_pnl :=
  (equity_curve_is_cumulative_pnl { positions := [pA, pB] } (by simp)).2

theorem get_mem_take_of_lt (l : List ℚ) (i j : ℕ) (hij : i < j) (hi : i < l.length) :
    l.get ⟨i, hi⟩ ∈ l.take j := by
  have hlen : i < (l.take j).length := by
    simp only [List.length_take]
    omega
  have hgt : (l.take j).get ⟨i, hlen⟩ = l.get ⟨i, hi⟩ := by
    simp [List.get_eq_getElem, List.getElem_take]
  rw [← hgt]
  exact List.get_mem _ _ _

theorem npMax_take_one_sub_head (l : List ℚ) (h0 : 0 < l.length) :
    npMax (l.take 1) - l.get ⟨0, h0⟩ = 0 := by
  cases l with
  | nil => simp at h0
  | cons e es => simp [npMax_cons, List.foldl]

theorem drawdown_get (l : List ℚ) (i : ℕ)
    (h : i < (List.zipWith (fun a b => a - b) (runningMax l) l).length)
    (hi : i < l.length) :
    (List.zipWith (fun a b => a - b) (runningMax l) l).get ⟨i, h⟩ =
      npMax (l.take (i + 1)) - l.get ⟨i, hi⟩ := by
  have hr : i < (runningMax l).length := by rw [runningMax_length]; exact hi
  have h1 : (List.zipWith (fun a b => a - b) (runningMax l) l).get ⟨i, h⟩ =
      (runningMax l).get ⟨i, hr⟩ - l.get ⟨i, hi⟩ := by
    simp [List.get_eq_getElem, List.getElem_zipWith]
  rw [h1, runningMax_get]

/-- C7: after `calculate_metrics` on a non-empty closed-position list,
`drawdown_curve[i]` is the running maximum of `equity_curve[0..i]` minus
`equity_curve[i]`, `max_drawdown` is the maximum of the drawdown curve,
`max_drawdown` is nonnegative, and `max_drawdown = 0` exactly when the equity
curve is non-decreasing. -/
theorem drawdown_curve_correct (r : BacktestResult) (h : r.positions ≠ []) :
    (∀ (i : ℕ) (hi : i < r.calculate_metrics.drawdown_curve.length),
        r.calculate_metrics.drawdown_curve.get ⟨i, hi⟩ =
          npMax (r.calculate_metrics.equity_curve.take (i + 1)) -
            r.calculate_metrics.equity_curve.getD i 0) ∧
    r.calculate_metrics.max_drawdown = npMax r.calculate_metrics.drawdown_curve ∧
    0 ≤ r.calculate_metrics.max_drawdown ∧
    (r.calculate_metrics.max_drawdown = 0 ↔
      List.Chain' (· ≤ ·) r.calculate_metrics.equity_curve) := by
  obtain ⟨heq, hdd, hmd, -, -⟩ := calculate_metrics_fields r h
  have hnep : r.positions.map Position.pnl ≠ [] := by
    simpa [List.map_eq_nil_iff] using h
  have hlen_eq : (cumsum (r.positions.map Position.pnl)).length =
      (r.positions.map Position.pnl).length := cumsum_length _
  have hne_eq : cumsum (r.positions.map Position.pnl) ≠ [] := by
    intro hc
    apply hnep
    have := hlen_eq
    rw [hc] at this
    exact List.length_eq_zero.mp this.symm
  have hlen_dd : (List.zipWith (fun a b => a - b)
      (runningMax (cumsum (r.positions.map Position.pnl)))
      (cumsum (r.positions.map Position.pnl))).length =
      (cumsum (r.positions.map Position.pnl)).length := by
    simp [List.length_zipWith, runningMax_length]
  have hne_dd : List.zipWith (fun a b => a - b)
      (runningMax (cumsum (r.positions.map Position.pnl)))
      (cumsum (r.positions.map Position.pnl)) ≠ [] := by
    intro hc
    apply hne_eq
    have := hlen_dd
    rw [hc] at this
    exact List.length_eq_zero.mp this.symm
  have hzero : ∀ (h0 : 0 < (List.zipWith (fun a b => a - b)
      (runningMax (cumsum (r.positions.map Position.pnl)))
      (cumsum (r.positions.map Position.pnl))).length),
      (List.zipWith (fun a b => a - b)
        (runningMax (cumsum (r.positions.map Position.pnl)))
        (cumsum (r.positions.map Position.pnl))).get ⟨0, h0⟩ = 0 := by
    intro h0
    have hi0 : 0 < (cumsum (r.positions.map Position.pnl)).length := by
      rw [← hlen_dd]; exact h0
    rw [drawdown_get _ 0 h0 hi0]
    exact npMax_take_one_sub_head _ hi0
  have h0lt : 0 < (List.zipWith (fun a b => a - b)
      (runningMax (cumsum (r.positions.map Position.pnl)))
      (cumsum (r.positions.map Position.pnl))).length := by
    rcases List.exists_cons_of_ne_nil hne_dd with ⟨a, as, hc⟩
    simp [hc]
  have hnonneg : 0 ≤ npMax (List.zipWith (fun a b => a - b)
      (runningMax (cumsum (r.positions.map Position.pnl)))
      (cumsum (r.positions.map Position.pnl))) := by
    rw [← hzero h0lt]
    exact le_npMax_of_mem (List.get_mem _ _ _)
  refine ⟨?_, ?_, ?_, ?_⟩
  · intro i hi
    rw [hdd] at hi
    have hi' : i < (cumsum (r.positions.map Position.pnl)).length := by
      rw [← hlen_dd]; exact hi
    rw [List.get_of_eq hdd, drawdown_get _ i hi hi', heq,
        List.getD_eq_get _ 0 hi']
  · rw [hmd, hdd]
  · rw [hmd]; exact hnonneg
  · rw [hmd, heq]
    constructor
    · intro hm0
      rw [List.chain'_iff_get]
      intro i hi
      have hi1 : i + 1 < (cumsum (r.positions.map Position.pnl)).length := by omega
      have hi1d : i + 1 < (List.zipWith (fun a b => a - b)
          (runningMax (cumsum (r.positions.map Position.pnl)))
          (cumsum (r.positions.map Position.pnl))).length := by
        rw [hlen_dd]; exact hi1
      have hle : (List.zipWith (fun a b => a - b)
          (runningMax (cumsum (r.positions.map Position.pnl)))
          (cumsum (r.positions.map Position.pnl))).get ⟨i + 1, hi1d⟩ ≤ 0 := by
        rw [← hm0]
        exact le_npMax_of_mem (List.get_mem _ _ _)
      rw [drawdown_get _ (i + 1) hi1d hi1] at hle
      have hmem : (cumsum (r.positions.map Position.pnl)).get ⟨i, by omega⟩ ∈
          (cumsum (r.positions.map Position.pnl)).take (i + 1 + 1) :=
        get_mem_take_of_lt _ i (i + 1 + 1) (by omega) (by omega)
      have := le_npMax_of_mem hmem
      linarith
    · intro hc
      refine le_antisymm (npMax_le hne_dd ?_) hnonneg
      intro x hx
      obtain ⟨⟨i, hi⟩, rfl⟩ := List.mem_iff_get.mp hx
      have hi' : i < (cumsum (r.positions.map Position.pnl)).length := by
        rw [← hlen_dd]; exact hi
      rw [drawdown_get _ i hi hi', npMax_take_of_chain _ hc i hi']
      simp

/-- Witness for C7: on `[pA, pB]` (P&Ls +50 then -20, equity 50 then 30) the
maximum drawdown is the maximum of the drawdown curve, it is nonnegative, and
it is nonzero exactly because the equity curve decreases. -/
theorem drawdown_curve_correct_witness :
    (BacktestResult.calculate_metrics { positions := [pA, pB] }).max_drawdown =
      npMax (BacktestResult.calculate_metrics { positions := [pA, pB] }).drawdown_curve ∧
    0 ≤ (BacktestResult.calculate_metrics { positions := [pA, pB] }).max_drawdown :=
  ⟨(drawdown_curve_correct { positions := [pA, pB] } (by simp)).2.1,
   (drawdown_curve_correct { positions := [pA, pB] } (by simp)).2.2.1⟩

/-! ### Counting lemmas for zero-P&L trades -/

theorem filter_pos_add_filter_neg_le (l : List ℚ) :
    (l.filter fun x => 0 < x).length + (l.filter fun x => x < 0).length ≤ l.length := by
  induction l with
  | nil => simp
  | cons x xs ih =>
    by_cases h1 : (0:ℚ) < x
    · have h2 : ¬ x < 0 := by linarith
      simp [List.filter_cons, h1, h2]
      omega
    · by_cases h2 : x < 0
      · simp [List.filter_cons, h1, h2]
        omega
      · simp [List.filter_cons, h1, h2]
        omega

theorem filter_pos_add_filter_neg_lt (l : List ℚ) (hmem : (0:ℚ) ∈ l) :
    (l.filter fun x => 0 < x).length + (l.filter fun x => x < 0).length < l.length := by
  induction l with
  | nil => cases hmem
  | cons y ys ih =>
    rcases List.mem_cons.mp hmem with heq | hmem
    · have h1 : ¬ (0:ℚ) < y := by rw [← heq]; exact lt_irrefl 0
      have h2 : ¬ y < 0 := by rw [← heq]; exact lt_irrefl 0
      have := filter_pos_add_filter_neg_le ys
      simp [List.filter_cons, h1, h2]
      omega
    · have hys := ih hmem
      by_cases h1 : (0:ℚ) < y
      · have h2 : ¬ y < 0 := by linarith
        simp [List.filter_cons, h1, h2]
        omega
      · by_cases h2 : y < 0
        · simp [List.filter_cons, h1, h2]
          omega
        · simp [List.filter_cons, h1, h2]
          omega

/-- C10: a closed trade with exactly zero P&L counts toward `total_trades` but
toward neither `winning_trades` (strictly positive P&L) nor `losing_trades`
(strictly negative P&L), both in `calculate_metrics` and in
`get_overall_metrics`: winning + losing never exceeds total, the inequality is
strict whenever some trade has zero P&L, and the win rate is computed from the
strictly positive P&L count only. -/
theorem zero_pnl_trades_counting :
    (∀ (r : BacktestResult), r.positions ≠ [] →
       r.calculate_metrics.winning_trades + r.calculate_metrics.losing_trades ≤
          r.calculate_metrics.total_trades ∧
       ((∃ p ∈ r.positions, p.pnl = 0) →
          r.calculate_metrics.winning_trades + r.calculate_metrics.losing_trades <
            r.calculate_metrics.total_trades) ∧
       r.calculate_metrics.win_rate =
         ((((r.positions.map Position.pnl).filter fun x => 0 < x).length : ℚ) /
            r.positions.length) * 100) ∧
    (∀ (ts : List Trade) (m : OverallResult),
       get_overall_metrics ts = .ok (some m) →
       m.summary.winning_trades + m.summary.losing_trades ≤ m.summary.total_trades ∧
       ((∃ t ∈ ts, t.pnl = 0) →
          m.summary.winning_trades + m.summary.losing_trades < m.summary.total_trades) ∧
       m.summary.win_rate =
         round2 (((((ts.map Trade.pnl).filter fun x => 0 < x).length : ℚ) /
            ts.length) * 100)) := by
  constructor
  · intro r h
    have hw : r.calculate_metrics.winning_trades =
        ((r.positions.map Position.pnl).filter fun x => 0 < x).length := by
      simp [BacktestResult.calculate_metrics, h]
    have hl : r.calculate_metrics.losing_trades =
        ((r.positions.map Position.pnl).filter fun x => x < 0).length := by
      simp [BacktestResult.calculate_metrics, h]
    have ht : r.calculate_metrics.total_trades = r.positions.length := by
      simp [BacktestResult.calculate_metrics, h]
    have hpos : 0 < r.positions.length := List.length_pos.mpr h
    have hwr : r.calculate_metrics.win_rate =
        ((((r.positions.map Position.pnl).filter fun x => 0 < x).length : ℚ) /
          r.positions.length) * 100 := by
      simp [BacktestResult.calculate_metrics, h, hpos]
    refine ⟨?_, ?_, hwr⟩
    · rw [hw, hl, ht]
      have := filter_pos_add_filter_neg_le (r.positions.map Position.pnl)
      simpa using this
    · rintro ⟨p, hp, hz⟩
      rw [hw, hl, ht]
      have hmem : (0:ℚ) ∈ r.positions.map Position.pnl :=
        List.mem_map.mpr ⟨p, hp, hz⟩
      have := filter_pos_add_filter_neg_lt (r.positions.map Position.pnl) hmem
      simpa using this
  · intro ts m hm
    by_cases hts : ts = []
    · subst hts
      simp [get_overall_metrics] at hm
    · rw [get_overall_metrics, if_neg hts] at hm
      have hrec := (Option.some.inj (Except.ok.inj hm))
      subst hrec
      have hpos : 0 < ts.length := List.length_pos.mpr hts
      refine ⟨?_, ?_, ?_⟩
      · have := filter_pos_add_filter_neg_le (ts.map Trade.pnl)
        simpa using this
      · rintro ⟨t, htmem, hz⟩
        have hmem : (0:ℚ) ∈ ts.map Trade.pnl := List.mem_map.mpr ⟨t, htmem, hz⟩
        have := filter_pos_add_filter_neg_lt (ts.map Trade.pnl) hmem
        simpa using this
      · simp [hpos]

/-- Witness for C10: on `[pA, pC]` (P&Ls +50 and 0) winning + losing counts are
strictly below the trade total. -/
theorem zero_pnl_trades_counting_witness :
    (BacktestResult.calculate_metrics { positions := [pA, pC] }).winning_trades +
        (BacktestResult.calculate_metrics { positions := [pA, pC] }).losing_trades <
      (BacktestResult.calculate_metrics { positions := [pA, pC] }).total_trades :=
  ((zero_pnl_trades_counting.1 { positions := [pA, pC] } (by simp)).2.1)
    ⟨pC, by simp, by norm_num [pC, Position.close_position, Position.calculate_pnl]⟩

/-! ### Totality lemmas for the analytics queries -/

theorem round2_zero : round2 0 = 0 := by
  norm_num [round2, roundHalfEven]

theorem pearsonrF_isOk (xs ys : List PyFloat) (h : 2 ≤ xs.length) :
    ∃ v, pearsonrF xs ys = .ok v := by
  rw [pearsonrF, if_neg (by omega)]
  split
  · exact ⟨_, rfl⟩
  · dsimp only
    split
    · exact ⟨_, rfl⟩
    · exact ⟨_, rfl⟩

/-- C2 counterexample: with exactly one trade loaded, `get_pattern_analysis`
raises (scipy's `pearsonr` requires at least two samples), so not every
analytics query is total on every non-empty loaded trade set. -/
theorem pattern_analysis_raises_on_single_trade :
    get_pattern_analysis [tA] = .error "x and y must have length at least 2." ∧
    ([tA] : List Trade) ≠ [] := by
  refine ⟨?_, by simp⟩
  rw [get_pattern_analysis, if_neg (by simp)]
  have h1 : pearsonrF ([tA].map Trade.risk_reward) ([tA].map fun t => .fin t.pnl) =
      .error "x and y must have length at least 2." := by
    rw [pearsonrF, if_pos (by simp)]
  rw [h1]
  rfl

/-- C2 amended: every analytics query returns the empty result (not an
exception) when no trades are loaded; `get_overall_metrics` and
`get_risk_metrics` are total on every loaded (closed) trade set, with the
documented sentinels (profit factor `inf` on zero gross loss, Sharpe and
Sortino `0` on fewer than two trades, Sharpe `0` on zero standard deviation);
`get_pattern_analysis` and `get_optimization_suggestions` are total on every
loaded set of at least two trades, but raise on a single-trade set because
their Pearson correlations require at least two samples. -/
theorem analytics_queries_totality :
    (get_overall_metrics [] = .ok none ∧ get_pattern_analysis [] = .ok none ∧
     get_risk_metrics [] = .ok none ∧ get_optimization_suggestions [] = .ok none) ∧
    (∀ ts : List Trade, ∃ o, get_overall_metrics ts = .ok o) ∧
    (∀ ts : List Trade, ∃ o, get_risk_metrics ts = .ok o) ∧
    (∀ ts : List Trade, 2 ≤ ts.length →
       (∃ o, get_pattern_analysis ts = .ok o) ∧
       (∃ o, get_optimization_suggestions ts = .ok o)) ∧
    (∀ (ts : List Trade) (m : OverallResult), get_overall_metrics ts = .ok (some m) →
       (((ts.map Trade.pnl).filter fun x => x < 0).sum = 0 →
          m.summary.profit_factor = .inf) ∧
       (ts.length = 1 →
          m.summary.sharpe_ratio = .fin 0 ∧ m.summary.sortino_ratio = .fin 0) ∧
       (1 < ts.length → popVar (ts.map Trade.pnl) = 0 →
          m.summary.sharpe_ratio = .fin 0)) := by
  refine ⟨⟨rfl, rfl, rfl, rfl⟩, ?_, ?_, ?_, ?_⟩
  · intro ts
    by_cases h : ts = []
    · subst h; exact ⟨none, rfl⟩
    · rw [get_overall_metrics, if_neg h]; exact ⟨_, rfl⟩
  · intro ts
    by_cases h : ts = []
    · subst h; exact ⟨none, rfl⟩
    · rw [get_risk_metrics, if_neg h]; exact ⟨_, rfl⟩
  · intro ts h
    have hne : ts ≠ [] := by intro hc; subst hc; simp at h
    have hlen1 : 2 ≤ (ts.map Trade.risk_reward).length := by simpa using h
    have hlen2 : 2 ≤ (ts.map fun t : Trade => PyFloat.fin t.duration).length := by
      simpa using h
    obtain ⟨v1, h1⟩ :=
      pearsonrF_isOk (ts.map Trade.risk_reward) (ts.map fun t => .fin t.pnl) hlen1
    obtain ⟨v2, h2⟩ :=
      pearsonrF_isOk (ts.map fun t => .fin t.duration) (ts.map fun t => .fin t.pnl)
        hlen2
    constructor
    · exact ⟨_, by rw [get_pattern_analysis, if_neg hne, h1, h2]; rfl⟩
    · exact ⟨_, by rw [get_optimization_suggestions, if_neg hne, h2]; rfl⟩
  · intro ts m hm
    have hne : ts ≠ [] := by
      intro hc; subst hc; simp [get_overall_metrics] at hm
    rw [get_overall_metrics, if_neg hne] at hm
    have hrec := (Option.some.inj (Except.ok.inj hm))
    subst hrec
    refine ⟨?_, ?_, ?_⟩
    · intro hzero
      have hgl : |((ts.map Trade.pnl).filter fun x => x < 0).sum| = 0 := by
        rw [hzero]; simp
      simp only
      rw [if_neg (by simp [hgl])]
      rfl
    · intro hone
      have hn : ¬ 1 < ts.length := by omega
      constructor
      · simp only
        rw [if_neg hn]
        simp [roundPy2, round2_zero]
      · simp only
        rw [if_neg hn]
        simp [roundPy2, round2_zero]
    · intro h2 hvar
      simp only
      rw [if_pos h2, if_neg (by simp [hvar])]
      simp [roundPy2, round2_zero]

/-- Witness for the amended C2: on the two-trade set `[tA, tB]` both
correlation-based queries succeed. -/
theorem analytics_queries_totality_witness :
    (∃ o, get_pattern_analysis [tA, tB] = .ok o) ∧
    (∃ o, get_optimization_suggestions [tA, tB] = .ok o) :=
  analytics_queries_totality.2.2.2.1 [tA, tB] (by simp)

/-! ### Round-trip lemmas: report, reload, overall metrics -/

theorem loadTradeDict_tradeDictOf (p : Position) (h1 : p.exit_time.isSome)
    (h2 : p.exit_reason.isSome) :
    loadTradeDict (tradeDictOf p) = some (tradeOfClosedPosition p) := by
  obtain ⟨et, het⟩ := Option.isSome_iff_exists.mp h1
  obtain ⟨er, her⟩ := Option.isSome_iff_exists.mp h2
  cases hep : p.exit_price with
  | none => simp [loadTradeDict, tradeDictOf, tradeOfClosedPosition, het, her, hep]
  | some q =>
    by_cases hq : q = 0
    · simp [loadTradeDict, tradeDictOf, tradeOfClosedPosition, het, her, hep, hq]
    · by_cases hr5 : round5 q = 0
      · simp [loadTradeDict, tradeDictOf, tradeOfClosedPosition, het, her, hep, hq, hr5]
      · simp [loadTradeDict, tradeDictOf, tradeOfClosedPosition, het, her, hep, hq, hr5]

theorem load_trades_report (ps : List Position)
    (hclosed : ∀ p ∈ ps, p.exit_time.isSome ∧ p.exit_reason.isSome) :
    load_trades (ps.map tradeDictOf) = some (ps.map tradeOfClosedPosition) := by
  induction ps with
  | nil => rfl
  | cons p ps ih =>
    have hp := hclosed p (List.mem_cons_self p ps)
    have htl := ih fun q hq => hclosed q (List.mem_cons_of_mem _ hq)
    have hhd := loadTradeDict_tradeDictOf p hp.1 hp.2
    simp only [load_trades, List.map_cons, List.mapM_cons] at htl ⊢
    rw [hhd, htl]
    rfl

theorem get_overall_metrics_isOkSome (ts : List Trade) (hne : ts ≠ []) :
    ∃ m, get_overall_metrics ts = .ok (some m) := by
  rw [get_overall_metrics, if_neg hne]
  exact ⟨_, rfl⟩

theorem get_overall_metrics_summary (ts : List Trade) (m : OverallResult)
    (hm : get_overall_metrics ts = .ok (some m)) :
    m.summary.total_trades = ts.length ∧
    m.summary.win_rate =
      round2 (((((ts.map Trade.pnl).filter fun x => 0 < x).length : ℚ) /
        ts.length) * 100) ∧
    m.summary.total_pnl = round2 (ts.map Trade.pnl).sum := by
  have hne : ts ≠ [] := by
    intro hc; subst hc; simp [get_overall_metrics] at hm
  rw [get_overall_metrics, if_neg hne] at hm
  have hrec := (Option.some.inj (Except.ok.inj hm))
  subst hrec
  have hpos : 0 < ts.length := List.length_pos.mpr hne
  exact ⟨rfl, by simp [hpos], rfl⟩

theorem calculate_metrics_scalars (r : BacktestResult) (h : r.positions ≠ []) :
    r.calculate_metrics.total_trades = r.positions.length ∧
    r.calculate_metrics.win_rate =
      ((((r.positions.map Position.pnl).filter fun x => 0 < x).length : ℚ) /
        r.positions.length) * 100 ∧
    r.calculate_metrics.total_pnl = (r.positions.map Position.pnl).sum ∧
    r.calculate_metrics.positions = r.positions := by
  have hpos : 0 < r.positions.length := List.length_pos.mpr h
  refine ⟨?_, ?_, ?_, ?_⟩ <;> simp [BacktestResult.calculate_metrics, h, hpos]

/-- C3 amended: for every `BacktestResult` computed by `calculate_metrics` from
a non-empty list of closed positions whose P&L values are all fixed points of
2-decimal rounding, feeding `generate_report`'s `trades` list back through
`load_trades` and `get_overall_metrics` reproduces `total_trades`, `win_rate`
and `total_pnl` of the report summary.  (Without the rounding restriction the
report's per-trade `round(pnl, 2)` can change the win/loss classification and
the P&L sum, and with an empty position list the reload returns the empty
result instead of a summary.) -/
theorem roundtrip_reproduces_summary (r : BacktestResult) (hne : r.positions ≠ [])
    (hclosed : ∀ p ∈ r.positions, p.exit_time.isSome ∧ p.exit_reason.isSome)
    (hexact : ∀ p ∈ r.positions, round2 p.pnl = p.pnl) :
    roundTripAgrees r.calculate_metrics := by
  obtain ⟨hT, hW, hP, hpos⟩ := calculate_metrics_scalars r hne
  have htr : (Backtester.generate_report r.calculate_metrics).trades =
      r.positions.map tradeDictOf := by
    show r.calculate_metrics.positions.map tradeDictOf = _
    rw [hpos]
  have hload : load_trades (Backtester.generate_report r.calculate_metrics).trades =
      some (r.positions.map tradeOfClosedPosition) := by
    rw [htr]
    exact load_trades_report r.positions hclosed
  have htsne : r.positions.map tradeOfClosedPosition ≠ [] := by
    simpa [List.map_eq_nil_iff] using hne
  obtain ⟨mo, hmo⟩ := get_overall_metrics_isOkSome _ htsne
  obtain ⟨hoT, hoW, hoP⟩ := get_overall_metrics_summary _ mo hmo
  have hpnl : (r.positions.map tradeOfClosedPosition).map Trade.pnl =
      r.positions.map Position.pnl := by
    rw [List.map_map]
    exact List.map_congr_left fun p hp => hexact p hp
  rw [roundTripAgrees, roundTripSummary, hload, Option.some_bind, hmo]
  have e1 : mo.summary.total_trades =
      (Backtester.generate_report r.calculate_metrics).summary.total_trades := by
    show _ = r.calculate_metrics.total_trades
    rw [hoT, hT, List.length_map]
  have e2 : mo.summary.win_rate =
      (Backtester.generate_report r.calculate_metrics).summary.win_rate := by
    show _ = round2 r.calculate_metrics.win_rate
    rw [hoW, hW, hpnl, List.length_map]
  have e3 : mo.summary.total_pnl =
      (Backtester.generate_report r.calculate_metrics).summary.total_pnl := by
    show _ = round2 r.calculate_metrics.total_pnl
    rw [hoP, hP, hpnl]
  show some (mo.summary.total_trades, mo.summary.win_rate, mo.summary.total_pnl) = _
  rw [e1, e2, e3]

/-- Witness for the amended C3: the single-position result with P&L exactly 0.5
(a fixed point of 2-decimal rounding) round-trips to the same summary triple. -/
theorem roundtrip_reproduces_summary_witness :
    roundTripAgrees (BacktestResult.calculate_metrics { positions := [pHalf] }) :=
  roundtrip_reproduces_summary { positions := [pHalf] } (by simp)
    (by
      intro p hp
      simp only [List.mem_singleton] at hp
      subst hp
      exact ⟨rfl, rfl⟩)
    (by
      intro p hp
      simp only [List.mem_singleton] at hp
      subst hp
      norm_num [pHalf, Position.close_position, Position.calculate_pnl, round2,
        roundHalfEven])

/-- C3 counterexample: for the result of a single closed position with P&L
0.004, the report rounds the per-trade P&L to 0.00, so the reloaded trade set
reports a win rate of 0 while the original summary says 100: the round trip
does *not* reproduce `win_rate` for every `BacktestResult`. -/
theorem roundtrip_changes_win_rate :
    ¬ roundTripAgrees (BacktestResult.calculate_metrics { positions := [pTiny] }) := by
  intro hagree
  have hne : ({ positions := [pTiny] } : BacktestResult).positions ≠ [] := by simp
  obtain ⟨hT, hW, hP, hpos⟩ := calculate_metrics_scalars { positions := [pTiny] } hne
  have hclosed : ∀ p ∈ ({ positions := [pTiny] } : BacktestResult).positions,
      p.exit_time.isSome ∧ p.exit_reason.isSome := by
    intro p hp
    simp only [List.mem_singleton] at hp
    subst hp
    exact ⟨rfl, rfl⟩
  have htr : (Backtester.generate_report
      (BacktestResult.calculate_metrics { positions := [pTiny] })).trades =
      List.map tradeDictOf [pTiny] := by
    show (BacktestResult.calculate_metrics
      { positions := [pTiny] }).positions.map tradeDictOf = _
    rw [hpos]
  obtain ⟨mo, hmo⟩ := get_overall_metrics_isOkSome
    (List.map tradeOfClosedPosition [pTiny]) (by simp)
  obtain ⟨hoT, hoW, hoP⟩ := get_overall_metrics_summary _ mo hmo
  rw [roundTripAgrees, roundTripSummary, htr, load_trades_report [pTiny] hclosed,
      Option.some_bind, hmo] at hagree
  have hagree2 : some (mo.summary.total_trades, mo.summary.win_rate,
      mo.summary.total_pnl) =
      some ((Backtester.generate_report
          (BacktestResult.calculate_metrics { positions := [pTiny] })).summary.total_trades,
        (Backtester.generate_report
          (BacktestResult.calculate_metrics { positions := [pTiny] })).summary.win_rate,
        (Backtester.generate_report
          (BacktestResult.calculate_metrics { positions := [pTiny] })).summary.total_pnl) :=
    hagree
  rw [Option.some.injEq, Prod.mk.injEq, Prod.mk.injEq] at hagree2
  have e2 : mo.summary.win_rate = (Backtester.generate_report
      (BacktestResult.calculate_metrics { positions := [pTiny] })).summary.win_rate :=
    hagree2.2.1
  have hpnlval : pTiny.pnl = 1/250 := by
    norm_num [pTiny, Position.close_position, Position.calculate_pnl]
  have hlhs : mo.summary.win_rate = 0 := by
    rw [hoW]
    have hmapped : List.map Trade.pnl (List.map tradeOfClosedPosition [pTiny]) =
        [round2 pTiny.pnl] := rfl
    rw [hmapped, hpnlval]
    norm_num [round2, roundHalfEven, List.filter]
  have hrhs : (Backtester.generate_report
      (BacktestResult.calculate_metrics { positions := [pTiny] })).summary.win_rate =
      100 := by
    show round2 (BacktestResult.calculate_metrics { positions := [pTiny] }).win_rate = 100
    rw [hW]
    have hmapped : List.map Position.pnl [pTiny] = [(1:ℚ)/250] := by
      rw [List.map_singleton, hpnlval]
    rw [hmapped]
    norm_num [round2, roundHalfEven, List.filter]
  rw [hlhs, hrhs] at e2
  norm_num at e2
